import Mathlib

/-!
Verification of `convert_docx_to_txt.py`, a DOCX → TXT converter that
preserves the interleaving of text paragraphs and images.

Shallow embedding. The zip package is modelled by `DocxFile`:

* `parts` — the zip namelist with the raw bytes of each entry
  (bytes as `List Nat`); `extract_images_from_docx` filters it for
  entries under `word/media/`.
* `paragraphs` — the result of parsing `word/document.xml` and taking
  `root.findall('.//w:p')` in document order: each paragraph carries its
  `w:t` run texts (a `None` text is modelled as `""`, which Python's
  truthiness test skips identically) and its `w:drawing` anchors, each
  anchor carrying the first `a:blip`'s optional `r:embed` attribute
  (`none` = no blip at all, `some none` = blip without the attribute).
  A document whose main XML part does not parse is fatal under both
  strategies and is outside this model.
* `relsPart` — the parsed `word/_rels/document.xml.rels` entries, or
  `none` when that part is missing or malformed (in Python: the read or
  `ET.fromstring` raises).
* `hasDocx` — the `HAS_DOCX` import flag; `docOpenOk` — whether
  `docx.Document(docx_path)` succeeds.

Python `dict` construction is modelled by an association list built in
insertion order with a last-entry-wins lookup; `str.strip()`,
`str.startswith`, `Path(...).name` and `'\n'.join` are written at
character level with structural recursion so that the kernel can
evaluate them. The OpenRouter HTTP call in `analyze_image_with_api` is
modelled by a `CallOutcome` parameter describing what the network layer
did; because Python is dynamically typed, the value the function
returns is a `PyVal` — a string or a non-string such as `None`, which
the source can return verbatim when the response's first choice carries
a non-string `content`. The renderer takes the description provider as
an explicit function argument `describe : List Nat → String → String`
(bytes, display name), the spec's injected-capability view.
-/

namespace DocxConvert

/-- One `Relationship` entry of the relationships part: its optional `Id`
attribute (`rel.get('Id')`) and its `Target` attribute with default `""`
(`rel.get('Target', '')`). -/
structure Rel where
  id : Option String
  target : String
deriving DecidableEq, Repr

/-- One `w:drawing` anchor of a paragraph. `blipEmbed` is the
`r:embed` attribute of the first `a:blip` inside the drawing:
`none` when `drawing.find('.//a:blip')` is `None`, `some none` when the
blip exists but has no embed attribute. -/
structure Drawing where
  blipEmbed : Option (Option String)
deriving DecidableEq, Repr

/-- One `w:p` node: the texts of its `w:t` descendants in order, and its
`w:drawing` descendants in order. -/
structure Paragraph where
  runs : List String
  drawings : List Drawing
deriving DecidableEq, Repr

/-- The input package, as described in the module docstring. -/
structure DocxFile where
  parts : List (String × List Nat)
  paragraphs : List Paragraph
  relsPart : Option (List Rel)
  hasDocx : Bool
  docOpenOk : Bool
deriving DecidableEq, Repr

/-- Output unit of the structure extractor: `('text', content)` or
`('image', image_path_in_zip)`. -/
inductive Element where
  | text (s : String)
  | image (path : String)
deriving DecidableEq, Repr

/-- `images` dict: media part path → raw bytes. -/
abbrev MediaStore := List (String × List Nat)

/-- `rel_to_image` dict: relationship `Id` (an optional string in the
XML) → media part path. -/
abbrev RelTable := List (Option String × String)

/-- Python `str.strip()` (both-ends whitespace removal), written at
character level with structural recursion so that it is
kernel-computable. -/
def strip (s : String) : String :=
  String.mk
    (((s.data.dropWhile Char.isWhitespace).reverse.dropWhile
      Char.isWhitespace).reverse)

/-- Python `str.startswith`, at character level. -/
def strStartsWith (s pre : String) : Bool :=
  pre.data.isPrefixOf s.data

/-- Splitting a character list on `/`, for `Path(...).name`. -/
def splitSlash : List Char → List (List Char)
  | [] => [[]]
  | c :: rest =>
    if c = '/' then [] :: splitSlash rest
    else
      match splitSlash rest with
      | [] => [[c]]
      | g :: gs => (c :: g) :: gs

/-- Python `'\n'.join(result_lines)`, at line level. -/
def joinLines : List String → String
  | [] => ""
  | [l] => l
  | l :: rest => l ++ "\n" ++ joinLines rest

/-- Python `dict` lookup over an insertion-ordered association list:
the last binding of a key wins. -/
def dictLookup (k : String) (ms : MediaStore) : Option (List Nat) :=
  (ms.reverse.find? (fun e => e.1 = k)).map (fun e => e.2)

/-- Lookup in `rel_to_image`; `r_embed in rel_to_image` and
`rel_to_image[r_embed]` for a (truthy, hence `some`) string key. -/
def relLookup (rt : RelTable) (k : String) : Option String :=
  (rt.reverse.find? (fun e => e.1 = some k)).map (fun e => e.2)

/-- `extract_images_from_docx`: every zip entry whose name starts with
`word/media/`, keyed by full part path. -/
def extract_images_from_docx (parts : List (String × List Nat)) : MediaStore :=
  parts.filter (fun e => strStartsWith e.1 "word/media/")

/-- The `rel_to_image` construction: for each relationship whose target
starts with `media/`, record `Id ↦ 'word/' + target`, in entry order. -/
def buildRelTable : List Rel → RelTable
  | [] => []
  | r :: rest =>
    (if strStartsWith r.target "media/" then [(r.id, "word/" ++ r.target)] else [])
      ++ buildRelTable rest

/-- The body of the drawing loop for a single drawing: the drawing
yields an image path iff it has a blip with a truthy `r:embed` that is a
key of `rel_to_image` and whose mapped path is a key of `images`. -/
def resolveDrawing (rt : RelTable) (ms : MediaStore) (d : Drawing) : Option String :=
  match d.blipEmbed with
  | none => none
  | some none => none
  | some (some embed) =>
    if embed = "" then none
    else
      match relLookup rt embed with
      | none => none
      | some path => if (dictLookup path ms).isSome then some path else none

/-- The `for drawing in drawings: ... break` loop: the first drawing that
resolves wins; later drawings are not examined. -/
def findParaImage (rt : RelTable) (ms : MediaStore) : List Drawing → Option String
  | [] => none
  | d :: rest =>
    match resolveDrawing rt ms d with
    | some p => some p
    | none => findParaImage rt ms rest

/-- `''.join(text_parts)` where `text_parts` collects each truthy
`t.text`. -/
def paraText (p : Paragraph) : String :=
  String.join (p.runs.filter (fun s => s ≠ ""))

/-- Elements contributed by one paragraph: if a drawing resolved, the
trimmed text (when non-empty) followed by the image, the text being
consumed; otherwise just the trimmed text when non-empty. -/
def paraElements (rt : RelTable) (ms : MediaStore) (p : Paragraph) : List Element :=
  match findParaImage rt ms p.drawings with
  | some path =>
    (if strip (paraText p) = "" then [] else [Element.text (strip (paraText p))])
      ++ [Element.image path]
  | none =>
    if strip (paraText p) = "" then [] else [Element.text (strip (paraText p))]

/-- The paragraph loop over `root.findall('.//w:p', ns)`. -/
def extractElements (rt : RelTable) (ms : MediaStore) : List Paragraph → List Element
  | [] => []
  | p :: rest => paraElements rt ms p ++ extractElements rt ms rest

/-- The primary (python-docx) strategy of `parse_docx_structure`:
fails (`none`) when `Document(docx_path)` fails or when the
relationships part is missing/malformed, since its rels read is not
guarded by a `try`; otherwise runs the paragraph loop. -/
def primaryExtract (f : DocxFile) : Option (List Element × MediaStore) :=
  let images := extract_images_from_docx f.parts
  if f.docOpenOk then
    match f.relsPart with
    | some rels =>
      some (extractElements (buildRelTable rels) images f.paragraphs, images)
    | none => none
  else none

/-- The fallback strategy's `rel_to_image` construction, transcribed
from its own (duplicated) block; its rels read is wrapped in
`try/except`, so a missing/malformed part yields the empty table. -/
def fbBuildRelTable : List Rel → RelTable
  | [] => []
  | r :: rest =>
    (if strStartsWith r.target "media/" then [(r.id, "word/" ++ r.target)] else [])
      ++ fbBuildRelTable rest

/-- The fallback strategy's drawing resolution, transcribed from its own
block. -/
def fbResolveDrawing (rt : RelTable) (ms : MediaStore) (d : Drawing) : Option String :=
  match d.blipEmbed with
  | none => none
  | some none => none
  | some (some embed) =>
    if embed = "" then none
    else
      match relLookup rt embed with
      | none => none
      | some path => if (dictLookup path ms).isSome then some path else none

/-- The fallback strategy's drawing loop. -/
def fbFindParaImage (rt : RelTable) (ms : MediaStore) : List Drawing → Option String
  | [] => none
  | d :: rest =>
    match fbResolveDrawing rt ms d with
    | some p => some p
    | none => fbFindParaImage rt ms rest

/-- The fallback strategy's per-paragraph emission. -/
def fbParaElements (rt : RelTable) (ms : MediaStore) (p : Paragraph) : List Element :=
  match fbFindParaImage rt ms p.drawings with
  | some path =>
    (if strip (paraText p) = "" then [] else [Element.text (strip (paraText p))])
      ++ [Element.image path]
  | none =>
    if strip (paraText p) = "" then [] else [Element.text (strip (paraText p))]

/-- The fallback strategy's paragraph loop. -/
def fbExtractElements (rt : RelTable) (ms : MediaStore) : List Paragraph → List Element
  | [] => []
  | p :: rest => fbParaElements rt ms p ++ fbExtractElements rt ms rest

/-- The fallback (direct XML) strategy of `parse_docx_structure`; always
succeeds in this model (a malformed main part is fatal and outside it). -/
def fallbackExtract (f : DocxFile) : List Element × MediaStore :=
  let images := extract_images_from_docx f.parts
  (fbExtractElements (fbBuildRelTable (f.relsPart.getD [])) images f.paragraphs, images)

/-- `parse_docx_structure`: try the primary strategy when `HAS_DOCX`,
fall back to the direct XML strategy on any exception. -/
def parse_docx_structure (f : DocxFile) : List Element × MediaStore :=
  if f.hasDocx then
    match primaryExtract f with
    | some r => r
    | none => fallbackExtract f
  else fallbackExtract f

/-- A Python value as produced by
`result['choices'][0]['message']['content']`: either a string, or a
non-string value (JSON `null` arrives as `None`; a number or object is
likewise possible), carried here by its printed form. Python is
dynamically typed, so the function can return either. -/
inductive PyVal where
  | str (s : String)
  | nonStr (v : String)
deriving DecidableEq, Repr

/-- Python `isinstance(x, str)`. -/
def isStr : PyVal → Bool
  | PyVal.str _ => true
  | PyVal.nonStr _ => false

/-- The string carried by a value (filler for non-strings, used only
under an `isStr` guard). -/
def strOf : PyVal → String
  | PyVal.str s => s
  | PyVal.nonStr _ => ""

/-- What the network/parse layer of `analyze_image_with_api` did:
`raised m` — some call in the `try` block raised an exception with
message `m` (connection error, `raise_for_status` on an HTTP error
status, a body `.json()` cannot parse, or the indexing
`result['choices'][0]['message']['content']` itself raising on a
malformed choice object); `noChoices` — a parsed body without a
non-empty `choices` list, taking the guarded else-branch; `responded v`
— the indexing evaluated without raising to the Python value `v`, which
need not be a string (a JSON `null` content evaluates to `None` without
raising). -/
inductive CallOutcome where
  | raised (msg : String)
  | noChoices
  | responded (content : PyVal)
deriving DecidableEq, Repr

/-- The `try` block of `analyze_image_with_api` after the key check:
`.error` is a raised exception, `.ok` a normal return — either the
first choice's content, returned verbatim whatever its type, or the
no-description placeholder. -/
def apiTryBody (imageName : String) : CallOutcome → Except String PyVal
  | CallOutcome.raised m => Except.error m
  | CallOutcome.noChoices =>
    Except.ok (PyVal.str
      ("[Изображение: " ++ imageName ++ " - Не удалось получить описание]"))
  | CallOutcome.responded v => Except.ok v

/-- `analyze_image_with_api`: the catch-all `except Exception` turns
every raised exception into a placeholder string, but a normal return
passes the first choice's content through verbatim — including a
non-string content, which is returned as-is. `apiKey` is the global
`OPENROUTER_API_KEY` (`""` when `LLM_TOKEN` is unset); `imageData` is
passed to base64 encoding, which cannot fail and does not affect the
returned value. -/
def analyze_image_with_api (apiKey : String) (imageData : List Nat)
    (imageName : String) (oc : CallOutcome) : PyVal :=
  if apiKey = "" then
    PyVal.str ("[Изображение: " ++ imageName ++ " - API токен не найден]")
  else
    match apiTryBody imageName oc with
    | Except.ok v => v
    | Except.error e =>
      PyVal.str ("[Изображение: " ++ imageName ++ " - Ошибка анализа: " ++ e ++ "]")

/-- Python `'\n'.join(result_lines)` over the dynamically-typed
`result_lines` of `convert_docx_to_txt`: raises `TypeError` when any
item is not a string, otherwise returns the joined string. -/
def pyJoin (lines : List PyVal) : Except String String :=
  if lines.all isStr then Except.ok (joinLines (lines.map strOf))
  else Except.error "TypeError"

/-- `Path(content).name`: the final `/`-separated segment of a path. -/
def baseName (s : String) : String :=
  String.mk ((splitSlash s.data).getLastD s.data)

/-- The image block header `f"\n[ИЗОБРАЖЕНИЕ {image_count}: {image_name}]"`
(the leading newline is part of the line, before joining). -/
def imageHeader (n : Nat) (name : String) : String :=
  "\n[ИЗОБРАЖЕНИЕ " ++ toString n ++ ": " ++ name ++ "]"

/-- The placeholder header
`f"\n[ИЗОБРАЖЕНИЕ {image_count}: {image_name} - не найдено]"`. -/
def notFoundHeader (n : Nat) (name : String) : String :=
  "\n[ИЗОБРАЖЕНИЕ " ++ toString n ++ ": " ++ name ++ " - не найдено]"

/-- The `result_lines` contribution of one element, given the counter
value `n` already assigned to it (for an image, the incremented
counter). -/
def elementLines (ms : MediaStore) (describe : List Nat → String → String)
    (n : Nat) : Element → List String
  | Element.text s => [s, ""]
  | Element.image path =>
    match dictLookup path ms with
    | some bytes =>
      [imageHeader n (baseName path), describe bytes (baseName path), ""]
    | none => [notFoundHeader n (baseName path), ""]

/-- The renderer loop of `convert_docx_to_txt`: `c` is the current
`image_count`, incremented on every image element before its block is
emitted. `describe` stands for the call
`analyze_image_with_api(images[content], image_name)`. -/
def renderLines (ms : MediaStore) (describe : List Nat → String → String) :
    Nat → List Element → List String
  | _, [] => []
  | c, Element.text s :: rest =>
    s :: "" :: renderLines ms describe c rest
  | c, Element.image path :: rest =>
    elementLines ms describe (c + 1) (Element.image path)
      ++ renderLines ms describe (c + 1) rest

/-- `convert_docx_to_txt`: parse, then render; `none` models the early
return when no elements were extracted (no output file is written);
otherwise the written content is `'\n'.join(result_lines)`. -/
def convert_docx_to_txt (f : DocxFile)
    (describe : List Nat → String → String) : Option String :=
  let pr := parse_docx_structure f
  if pr.1 = [] then none
  else some (joinLines (renderLines pr.2 describe 0 pr.1))

/-- Counter/element pairing used to state the renderer's numbering
discipline: each element is paired with the value the image counter has
when its block is emitted. -/
def numberImages : Nat → List Element → List (Nat × Element)
  | _, [] => []
  | c, Element.text s :: rest => (c, Element.text s) :: numberImages c rest
  | c, Element.image p :: rest =>
    (c + 1, Element.image p) :: numberImages (c + 1) rest

/-- Recognizer for image elements. -/
def isImageElem : Element → Bool
  | Element.image _ => true
  | Element.text _ => false

/-- Number of times the renderer's "not found" branch fires on a given
element sequence. -/
def notFoundCount (ms : MediaStore) : List Element → Nat
  | [] => 0
  | Element.text _ :: rest => notFoundCount ms rest
  | Element.image p :: rest =>
    (if (dictLookup p ms).isSome then 0 else 1) + notFoundCount ms rest

/-- The text-only element sequence of a paragraph list: one `Text` per
paragraph with non-empty trimmed text, in order. -/
def textElements (ps : List Paragraph) : List Element :=
  ps.filterMap (fun p =>
    if strip (paraText p) = "" then none else some (Element.text (strip (paraText p))))

/-! Concrete fixtures used in witnesses and counterexamples. -/

/-- A relationships part with one image relationship. -/
def exRels : List Rel := [⟨some "rId1", "media/A.png"⟩]

/-- A text-only paragraph `"Title"`. -/
def pTitle : Paragraph := ⟨["Title"], []⟩

/-- A paragraph holding only image A. -/
def pImage : Paragraph := ⟨[], [⟨some (some "rId1")⟩]⟩

/-- A text-only paragraph `"Body text"`. -/
def pBody : Paragraph := ⟨["Body text"], []⟩

/-- A paragraph with both a caption text and image A. -/
def pCap : Paragraph := ⟨["Caption"], [⟨some (some "rId1")⟩]⟩

/-- The end-to-end scenario document: `["Title"]`, `[image A]`,
`["Body text"]`. -/
def exDoc3 : DocxFile :=
  ⟨[("word/media/A.png", [137, 80])], [pTitle, pImage, pBody],
    some exRels, true, true⟩

/-- A document whose middle paragraph carries both text and an image. -/
def exDocC1 : DocxFile :=
  ⟨[("word/media/A.png", [9])], [pTitle, pCap, pBody],
    some exRels, true, true⟩

/-- A document with a drawing anchor but no relationships part. -/
def exDocNoRels : DocxFile :=
  ⟨[("word/media/A.png", [1])], [⟨["Hello"], [⟨some (some "rId1")⟩]⟩],
    none, true, true⟩

/-- A deterministic provider stub returning `"<desc>"`. -/
def stubDescribe : List Nat → String → String := fun _ _ => "<desc>"

/-- A second, pointwise-identical provider stub. -/
def stubDescribe2 : List Nat → String → String := fun _ _ => "<desc>"

/-! Helper lemmas. -/

/-- The two strategies' relationship-table builders coincide. -/
theorem fbBuildRelTable_eq (rels : List Rel) :
    fbBuildRelTable rels = buildRelTable rels := by
  induction rels with
  | nil => rfl
  | cons r rest ih => simp [fbBuildRelTable, buildRelTable, ih]

/-- The two strategies' drawing resolutions coincide. -/
theorem fbResolveDrawing_eq (rt : RelTable) (ms : MediaStore) (d : Drawing) :
    fbResolveDrawing rt ms d = resolveDrawing rt ms d := rfl

/-- The two strategies' drawing loops coincide. -/
theorem fbFindParaImage_eq (rt : RelTable) (ms : MediaStore) (ds : List Drawing) :
    fbFindParaImage rt ms ds = findParaImage rt ms ds := by
  induction ds with
  | nil => rfl
  | cons d rest ih =>
    simp [fbFindParaImage, findParaImage, fbResolveDrawing_eq, ih]

/-- The two strategies' per-paragraph emissions coincide. -/
theorem fbParaElements_eq (rt : RelTable) (ms : MediaStore) (p : Paragraph) :
    fbParaElements rt ms p = paraElements rt ms p := by
  simp [fbParaElements, paraElements, fbFindParaImage_eq]

/-- The two strategies' paragraph loops coincide. -/
theorem fbExtractElements_eq (rt : RelTable) (ms : MediaStore)
    (ps : List Paragraph) :
    fbExtractElements rt ms ps = extractElements rt ms ps := by
  induction ps with
  | nil => rfl
  | cons p rest ih =>
    simp [fbExtractElements, extractElements, fbParaElements_eq, ih]

/-- Whatever path is taken (primary, fallback after primary failure, or
fallback without python-docx), `parse_docx_structure` returns the shared
paragraph-loop result over the effective relationship table (the parsed
rels entries, or `[]` when the part is missing/malformed) and the media
store. -/
theorem parse_docx_structure_eq (f : DocxFile) :
    parse_docx_structure f =
      (extractElements (buildRelTable (f.relsPart.getD []))
          (extract_images_from_docx f.parts) f.paragraphs,
        extract_images_from_docx f.parts) := by
  unfold parse_docx_structure primaryExtract fallbackExtract
  cases hdx : f.hasDocx with
  | false => simp [fbExtractElements_eq, fbBuildRelTable_eq]
  | true =>
    cases hok : f.docOpenOk with
    | false => simp [fbExtractElements_eq, fbBuildRelTable_eq]
    | true =>
      cases hr : f.relsPart with
      | none => simp [fbExtractElements_eq, fbBuildRelTable_eq]
      | some rels => simp

/-- The paragraph loop distributes over list append. -/
theorem extractElements_append (rt : RelTable) (ms : MediaStore)
    (l1 l2 : List Paragraph) :
    extractElements rt ms (l1 ++ l2) =
      extractElements rt ms l1 ++ extractElements rt ms l2 := by
  induction l1 with
  | nil => rfl
  | cons p rest ih => simp [extractElements, ih]

/-- A resolved paragraph image is a key of the media store. -/
theorem resolveDrawing_mem (rt : RelTable) (ms : MediaStore) (d : Drawing)
    (path : String) (h : resolveDrawing rt ms d = some path) :
    (dictLookup path ms).isSome = true := by
  unfold resolveDrawing at h
  cases hb : d.blipEmbed with
  | none => simp [hb] at h
  | some eo =>
    cases eo with
    | none => simp [hb] at h
    | some embed =>
      simp only [hb] at h
      by_cases he : embed = ""
      · simp [he] at h
      · simp only [if_neg he] at h
        cases hl : relLookup rt embed with
        | none => simp [hl] at h
        | some q =>
          simp only [hl] at h
          by_cases hm : (dictLookup q ms).isSome = true
          · simp only [if_pos hm] at h
            cases h; exact hm
          · simp [hm] at h

/-- The drawing loop only returns a path that is a key of the media
store. -/
theorem findParaImage_mem (rt : RelTable) (ms : MediaStore)
    (ds : List Drawing) (path : String)
    (h : findParaImage rt ms ds = some path) :
    (dictLookup path ms).isSome = true := by
  induction ds with
  | nil => simp [findParaImage] at h
  | cons d rest ih =>
    unfold findParaImage at h
    cases hr : resolveDrawing rt ms d with
    | some q => simp only [hr] at h; cases h; exact resolveDrawing_mem rt ms d path hr
    | none => simp only [hr] at h; exact ih h

/-- The drawing loop selects exactly the first drawing that resolves:
some index resolves to the returned path and every earlier index does
not resolve at all. -/
theorem findParaImage_first (rt : RelTable) (ms : MediaStore)
    (ds : List Drawing) (path : String)
    (h : findParaImage rt ms ds = some path) :
    ∃ i, ∃ hi : i < ds.length,
      resolveDrawing rt ms (ds.get ⟨i, hi⟩) = some path ∧
        ∀ j, (hj : j < ds.length) → j < i →
          resolveDrawing rt ms (ds.get ⟨j, hj⟩) = none := by
  induction ds with
  | nil => simp [findParaImage] at h
  | cons d rest ih =>
    unfold findParaImage at h
    cases hr : resolveDrawing rt ms d with
    | some q =>
      simp only [hr] at h
      cases h
      exact ⟨0, by simp, hr, fun j hj hj0 => absurd hj0 (Nat.not_lt_zero j)⟩
    | none =>
      simp only [hr] at h
      obtain ⟨i, hi, hres, hbefore⟩ := ih h
      refine ⟨i + 1, by simpa using Nat.succ_lt_succ hi, hres, ?_⟩
      intro j hj hji
      cases j with
      | zero => exact hr
      | succ j =>
        exact hbefore j (by simpa using Nat.lt_of_succ_lt_succ hj)
          (Nat.lt_of_succ_lt_succ hji)

/-- With an empty relationship table nothing resolves. -/
theorem resolveDrawing_empty (ms : MediaStore) (d : Drawing) :
    resolveDrawing [] ms d = none := by
  unfold resolveDrawing
  cases hb : d.blipEmbed with
  | none => rfl
  | some eo =>
    cases eo with
    | none => rfl
    | some embed =>
      by_cases he : embed = "" <;> simp [he, relLookup]

/-- With an empty relationship table the drawing loop finds nothing. -/
theorem findParaImage_empty (ms : MediaStore) (ds : List Drawing) :
    findParaImage [] ms ds = none := by
  induction ds with
  | nil => rfl
  | cons d rest ih => simp [findParaImage, resolveDrawing_empty, ih]

/-- With an empty relationship table the paragraph loop emits exactly
the non-empty trimmed paragraph texts, in order. -/
theorem extractElements_empty_table (ms : MediaStore) (ps : List Paragraph) :
    extractElements [] ms ps = textElements ps := by
  induction ps with
  | nil => rfl
  | cons p rest ih =>
    simp only [extractElements, paraElements, findParaImage_empty, ih,
      textElements, List.filterMap_cons]
    by_cases ht : strip (paraText p) = "" <;> simp [ht, textElements]

/-- The renderer never consults the provider on an element sequence it
renders identically for any two providers that agree pointwise;
`renderLines` is congruent in `describe`. -/
theorem renderLines_congr (ms : MediaStore)
    (d1 d2 : List Nat → String → String)
    (h : ∀ b n, d1 b n = d2 b n) (c : Nat) (es : List Element) :
    renderLines ms d1 c es = renderLines ms d2 c es := by
  induction es generalizing c with
  | nil => rfl
  | cons e rest ih =>
    cases e with
    | text s => simp [renderLines, ih]
    | image p =>
      simp only [renderLines, elementLines, ih]
      cases dictLookup p ms with
      | none => rfl
      | some bytes => simp [h]

/-- `notFoundCount` distributes over append. -/
theorem notFoundCount_append (ms : MediaStore) (a b : List Element) :
    notFoundCount ms (a ++ b) = notFoundCount ms a + notFoundCount ms b := by
  induction a with
  | nil => simp [notFoundCount]
  | cons e rest ih =>
    cases e with
    | text s => simp [notFoundCount, ih]
    | image p => simp [notFoundCount, ih]; omega

/-- The text-only sequence contains no image elements. -/
theorem textElements_no_images (ps : List Paragraph) :
    (textElements ps).countP isImageElem = 0 := by
  induction ps with
  | nil => rfl
  | cons p rest ih =>
    simp only [textElements, List.filterMap_cons] at *
    by_cases ht : strip (paraText p) = "" <;> simp [ht, ih, isImageElem]

/-- A sequence without image elements renders identically under any two
providers: the provider is never consulted. -/
theorem renderLines_no_images_congr (ms : MediaStore)
    (d1 d2 : List Nat → String → String) (c : Nat) (es : List Element)
    (h : es.countP isImageElem = 0) :
    renderLines ms d1 c es = renderLines ms d2 c es := by
  induction es generalizing c with
  | nil => rfl
  | cons e rest ih =>
    cases e with
    | text s =>
      simp only [List.countP_cons, isImageElem] at h
      simp [renderLines, ih _ (by omega)]
    | image p => simp [List.countP_cons, isImageElem] at h

/-- A sequence without image elements triggers no "not found" branch. -/
theorem notFoundCount_no_images (ms : MediaStore) (es : List Element)
    (h : es.countP isImageElem = 0) : notFoundCount ms es = 0 := by
  induction es with
  | nil => rfl
  | cons e rest ih =>
    cases e with
    | text s =>
      simp only [List.countP_cons, isImageElem] at h
      simp [notFoundCount, ih (by omega)]
    | image p => simp [List.countP_cons, isImageElem] at h

/-- Every image element emitted by the paragraph loop has its path in
the media store, and the renderer's "not found" branch never fires on
the loop's output. -/
theorem extractElements_media_invariant (rt : RelTable) (ms : MediaStore)
    (ps : List Paragraph) :
    (∀ path, Element.image path ∈ extractElements rt ms ps →
        (dictLookup path ms).isSome = true) ∧
      notFoundCount ms (extractElements rt ms ps) = 0 := by
  induction ps with
  | nil => exact ⟨fun path h => absurd h (List.not_mem_nil _), rfl⟩
  | cons p rest ih =>
    have hpara : (∀ path, Element.image path ∈ paraElements rt ms p →
        (dictLookup path ms).isSome = true) ∧
        notFoundCount ms (paraElements rt ms p) = 0 := by
      unfold paraElements
      cases hf : findParaImage rt ms p.drawings with
      | none =>
        by_cases ht : strip (paraText p) = "" <;>
          simp [ht, notFoundCount, isImageElem]
      | some q =>
        have hq := findParaImage_mem rt ms p.drawings q hf
        by_cases ht : strip (paraText p) = "" <;>
          simp only [ht, if_pos, if_neg, List.nil_append, List.cons_append,
            List.singleton_append, ite_true, ite_false] <;>
          constructor <;>
          simp_all [notFoundCount, hq]
    constructor
    · intro path hmem
      rw [show p :: rest = [p] ++ rest from rfl, extractElements_append] at hmem
      rcases List.mem_append.mp hmem with hmem | hmem
      · exact hpara.1 path (by simpa [extractElements] using hmem)
      · exact ih.1 path hmem
    · rw [show p :: rest = [p] ++ rest from rfl, extractElements_append,
        notFoundCount_append]
      have : notFoundCount ms (extractElements rt ms [p]) = 0 := by
        simpa [extractElements, notFoundCount_append] using hpara.2
      omega

/-- The renderer's output is the flattening of the counter/element
pairing. -/
theorem renderLines_eq_numbered (ms : MediaStore)
    (describe : List Nat → String → String) (c : Nat) (es : List Element) :
    renderLines ms describe c es =
      (numberImages c es).flatMap (fun ne => elementLines ms describe ne.1 ne.2) := by
  induction es generalizing c with
  | nil => rfl
  | cons e rest ih =>
    cases e with
    | text s => simp [renderLines, numberImages, elementLines, ih]
    | image p => simp [renderLines, numberImages, ih]

/-- The counter values paired with the image elements starting from
counter `c` are exactly `c+1, c+2, …` — consecutive and ascending. -/
theorem isImageElem_text (s : String) : isImageElem (Element.text s) = false := rfl

/-- `isImageElem` accepts image elements. -/
theorem isImageElem_image (p : String) : isImageElem (Element.image p) = true := rfl

/-- The counter values paired with the image elements starting from
counter `c` are exactly `c+1, c+2, …` — consecutive and ascending. -/
theorem numberImages_counters (c : Nat) (es : List Element) :
    ((numberImages c es).filter (fun ne => isImageElem ne.2)).map
        (fun ne => ne.1) =
      List.range' (c + 1) (es.countP isImageElem) := by
  induction es generalizing c with
  | nil => rfl
  | cons e rest ih =>
    cases e with
    | text s =>
      simp only [numberImages, List.filter_cons, List.countP_cons,
        isImageElem_text, Bool.false_eq_true, if_false, ih, cond_false,
        Nat.add_zero]
    | image p =>
      simp only [numberImages, List.filter_cons, List.countP_cons,
        isImageElem_image, if_true, List.map_cons, ih, cond_true,
        List.range'_succ]

/-- String concatenation is associative. -/
theorem stringAppend_assoc (a b c : String) : a ++ b ++ c = a ++ (b ++ c) := by
  cases a with
  | mk la =>
    cases b with
    | mk lb =>
      cases c with
      | mk lc =>
        show String.mk (la ++ lb ++ lc) = String.mk (la ++ (lb ++ lc))
        rw [List.append_assoc]

/-! Claim theorems. -/

/-- C1: for every paragraph of the parsed document that contributes both
text and a recognized (resolvable) image, `parse_docx_structure` places
the `Text` element for the trimmed paragraph text (non-empty here)
immediately before the `ImageRef` element, and everything after the
`ImageRef` comes from the later paragraphs, so no further `Text` for the
same paragraph appears later in the sequence. -/
theorem text_immediately_precedes_image (f : DocxFile)
    (pre post : List Paragraph) (p : Paragraph) (path : String)
    (hps : f.paragraphs = pre ++ p :: post)
    (himg : findParaImage (buildRelTable (f.relsPart.getD []))
        (extract_images_from_docx f.parts) p.drawings = some path)
    (ht : strip (paraText p) ≠ "") :
    (parse_docx_structure f).1 =
      extractElements (buildRelTable (f.relsPart.getD []))
          (extract_images_from_docx f.parts) pre
        ++ [Element.text (strip (paraText p)), Element.image path]
        ++ extractElements (buildRelTable (f.relsPart.getD []))
          (extract_images_from_docx f.parts) post := by
  rw [parse_docx_structure_eq]
  simp only
  rw [hps, extractElements_append]
  simp [extractElements, paraElements, himg, ht]

/-- Witness for C1 at a concrete document whose middle paragraph has
caption text and a resolvable image. -/
theorem text_immediately_precedes_image_witness :
    (parse_docx_structure exDocC1).1 =
      extractElements (buildRelTable (exDocC1.relsPart.getD []))
          (extract_images_from_docx exDocC1.parts) [pTitle]
        ++ [Element.text (strip (paraText pCap)), Element.image "word/media/A.png"]
        ++ extractElements (buildRelTable (exDocC1.relsPart.getD []))
          (extract_images_from_docx exDocC1.parts) [pBody] :=
  text_immediately_precedes_image exDocC1 [pTitle] [pBody] pCap
    "word/media/A.png" (by decide) (by decide) (by decide)

/-- C2 counterexample: `exDocNoRels` has one paragraph with text
`"Hello"` and one drawing anchor, and no relationships part. Contrary to
the claim, the drawing is not rendered as a "not found" block: the
extractor emits only the text element, the whole rendered output is
`"Hello\n"`, and the renderer's "not found" branch never fires. -/
theorem no_rels_drawing_not_rendered_counterexample :
    convert_docx_to_txt exDocNoRels stubDescribe = some "Hello\n" ∧
    (parse_docx_structure exDocNoRels).1 = [Element.text "Hello"] ∧
    notFoundCount (parse_docx_structure exDocNoRels).2
        (parse_docx_structure exDocNoRels).1 = 0 := by
  refine ⟨?_, ?_, ?_⟩ <;> decide

/-- C2 amended: for a document lacking a relationships part the
conversion still emits all non-empty text paragraphs, but drawings are
silently skipped — no image element, no "not found" block, and the
description provider is never consulted. More generally a drawing whose
relationship-id is absent from the table, or whose resolved path is
absent from the media store, contributes no element at all (rather than
a "not found" block) and never reaches the provider. -/
theorem no_rels_text_only_drawings_skipped (f : DocxFile)
    (h : f.relsPart = none) :
    ((parse_docx_structure f).1 = textElements f.paragraphs ∧
      (parse_docx_structure f).1.countP isImageElem = 0 ∧
      notFoundCount (parse_docx_structure f).2 (parse_docx_structure f).1 = 0 ∧
      ∀ d1 d2 c, renderLines (parse_docx_structure f).2 d1 c
          (parse_docx_structure f).1 =
        renderLines (parse_docx_structure f).2 d2 c
          (parse_docx_structure f).1) ∧
    ∀ rt ms dr embed, dr.blipEmbed = some (some embed) →
      (relLookup rt embed = none ∨
        ∃ q, relLookup rt embed = some q ∧ dictLookup q ms = none) →
      resolveDrawing rt ms dr = none := by
  have h1 : (parse_docx_structure f).1 = textElements f.paragraphs := by
    rw [parse_docx_structure_eq, h]
    simp only [Option.getD_none]
    rw [show buildRelTable [] = [] from rfl, extractElements_empty_table]
  refine ⟨⟨h1, ?_, ?_, ?_⟩, ?_⟩
  · rw [h1]; exact textElements_no_images f.paragraphs
  · rw [h1]
    exact notFoundCount_no_images _ _ (textElements_no_images f.paragraphs)
  · intro d1 d2 c
    apply renderLines_no_images_congr
    rw [h1]; exact textElements_no_images f.paragraphs
  · intro rt ms dr embed hb hres
    unfold resolveDrawing
    rw [hb]
    by_cases he : embed = ""
    · simp [he]
    · rcases hres with hl | ⟨q, hq, hm⟩
      · simp [he, hl]
      · simp [he, hq, hm]

/-- Witness for the amended C2 at the concrete no-relationships
document. -/
theorem no_rels_text_only_drawings_skipped_witness :
    (parse_docx_structure exDocNoRels).1 = textElements exDocNoRels.paragraphs ∧
    (parse_docx_structure exDocNoRels).1.countP isImageElem = 0 :=
  ⟨((no_rels_text_only_drawings_skipped exDocNoRels rfl).1).1,
    ((no_rels_text_only_drawings_skipped exDocNoRels rfl).1).2.1⟩

/-- C3 counterexample: on the exact scenario document (paragraphs
`["Title"]`, `[image A]`, `["Body text"]`) with the `"<desc>"` provider
stub, the rendered output is not the claimed string: the image label
reads `[ИЗОБРАЖЕНИЕ 1: A.png]`, not `[IMAGE 1: A.png]`, and the output
ends in a single newline, not two. -/
theorem end_to_end_output_counterexample :
    convert_docx_to_txt exDoc3 stubDescribe ≠
      some "Title\n\n\n[IMAGE 1: A.png]\n<desc>\n\nBody text\n\n" := by
  decide

/-- C3 amended: the complete rendered output of the scenario document is
exactly `"Title\n\n\n[ИЗОБРАЖЕНИЕ 1: A.png]\n<desc>\n\nBody text\n"` —
blank-line separated paragraphs, the labeled image block followed by the
description line equal to `"<desc>"` exactly, and a single trailing
newline. -/
theorem end_to_end_output_exact :
    convert_docx_to_txt exDoc3 stubDescribe =
      some "Title\n\n\n[ИЗОБРАЖЕНИЕ 1: A.png]\n<desc>\n\nBody text\n" := by
  decide

/-- C4: the renderer's output is obtained by pairing each element with
the image counter in force when its block is emitted (the counter starts
at zero and is incremented on every image element before printing), and
the counters paired with the image elements are exactly `1, 2, 3, …` in
order — strictly ascending from 1, one per `ImageRef`, matching their
order in the element sequence. -/
theorem image_counters_strictly_ascending (ms : MediaStore)
    (describe : List Nat → String → String) (es : List Element) :
    renderLines ms describe 0 es =
      (numberImages 0 es).flatMap
        (fun ne => elementLines ms describe ne.1 ne.2) ∧
    ((numberImages 0 es).filter (fun ne => isImageElem ne.2)).map
        (fun ne => ne.1) =
      List.range' 1 (es.countP isImageElem) :=
  ⟨renderLines_eq_numbered ms describe 0 es, numberImages_counters 0 es⟩

/-- C5: the extractor recognizes at most one image per paragraph; when
it recognizes one, the recognized path is the first drawing anchor that
resolves (every earlier anchor resolves to nothing), exactly one
`ImageRef` is emitted for it, and no element is emitted for the other
anchors. -/
theorem single_image_per_paragraph (rt : RelTable) (ms : MediaStore)
    (p : Paragraph) :
    (paraElements rt ms p).countP isImageElem ≤ 1 ∧
    ∀ path, findParaImage rt ms p.drawings = some path →
      ((paraElements rt ms p).filter isImageElem = [Element.image path] ∧
      ∃ i, ∃ hi : i < p.drawings.length,
        resolveDrawing rt ms (p.drawings.get ⟨i, hi⟩) = some path ∧
        ∀ j, (hj : j < p.drawings.length) → j < i →
          resolveDrawing rt ms (p.drawings.get ⟨j, hj⟩) = none) := by
  constructor
  · unfold paraElements
    cases hf : findParaImage rt ms p.drawings with
    | none =>
      by_cases ht : strip (paraText p) = "" <;>
        simp [ht, List.countP_cons, isImageElem_text]
    | some q =>
      by_cases ht : strip (paraText p) = "" <;>
        simp [ht, List.countP_cons, List.countP_append,
          isImageElem_text, isImageElem_image]
  · intro path hf
    refine ⟨?_, findParaImage_first rt ms p.drawings path hf⟩
    unfold paraElements
    rw [hf]
    by_cases ht : strip (paraText p) = "" <;>
      simp [ht, List.filter_cons, isImageElem_text, isImageElem_image]

/-- Witness for C5 at a concrete paragraph carrying caption text and one
resolvable anchor. -/
theorem single_image_per_paragraph_witness :
    (paraElements (buildRelTable exRels)
        (extract_images_from_docx exDocC1.parts) pCap).filter isImageElem =
      [Element.image "word/media/A.png"] :=
  ((single_image_per_paragraph (buildRelTable exRels)
      (extract_images_from_docx exDocC1.parts) pCap).2
    "word/media/A.png" (by decide)).1

/-- C6: a missing or malformed relationships part is never fatal: the
relationship table becomes empty and the extractor still returns the
element sequence of all non-empty text paragraphs together with the
media store. -/
theorem missing_rels_nonfatal (f : DocxFile) (h : f.relsPart = none) :
    parse_docx_structure f =
      (textElements f.paragraphs, extract_images_from_docx f.parts) := by
  rw [parse_docx_structure_eq, h]
  simp only [Option.getD_none]
  rw [show buildRelTable [] = [] from rfl, extractElements_empty_table]

/-- Witness for C6 at the concrete no-relationships document. -/
theorem missing_rels_nonfatal_witness :
    parse_docx_structure exDocNoRels =
      (textElements exDocNoRels.paragraphs,
        extract_images_from_docx exDocNoRels.parts) :=
  missing_rels_nonfatal exDocNoRels rfl

/-- C7 counterexample: with a credential present and a response whose
first choice's content is JSON `null` (Python `None`), the indexing
evaluates without raising, so no handler fires: the function returns
the non-string `None` verbatim — not a string and not a placeholder —
and the later `'\n'.join` over result lines containing it raises
`TypeError`, aborting that document's conversion. -/
theorem analyze_nonstring_content_counterexample :
    analyze_image_with_api "sk" [1] "A.png"
        (CallOutcome.responded (PyVal.nonStr "None")) = PyVal.nonStr "None" ∧
    isStr (analyze_image_with_api "sk" [1] "A.png"
        (CallOutcome.responded (PyVal.nonStr "None"))) = false ∧
    pyJoin [PyVal.str "Title", PyVal.str "",
        analyze_image_with_api "sk" [1] "A.png"
          (CallOutcome.responded (PyVal.nonStr "None"))] =
      Except.error "TypeError" := by
  refine ⟨rfl, rfl, rfl⟩

/-- C7 amended: no exception escapes `analyze_image_with_api` itself —
every failure that raises inside the `try` block (network error, HTTP
error status, unparseable body, a choice object whose indexing raises),
a response without choices, and a missing credential all yield a
returned placeholder string embedding the image name and a short
reason, and a string content is returned verbatim. But a response whose
first choice's content is present and not a string (e.g. JSON `null`)
is also returned verbatim — no placeholder — and any such non-string
among the result lines makes the output join raise `TypeError`, so this
one failure mode does abort the document's conversion. -/
theorem analyze_image_failure_placeholder (key : String) (data : List Nat)
    (name : String) (oc : CallOutcome) :
    (∀ s, oc = CallOutcome.responded (PyVal.str s) → ¬key = "" →
      analyze_image_with_api key data name oc = PyVal.str s) ∧
    ((key = "" ∨ oc = CallOutcome.noChoices ∨
        ∃ m, oc = CallOutcome.raised m) →
      ∃ reason, analyze_image_with_api key data name oc =
        PyVal.str ("[Изображение: " ++ name ++ " - " ++ reason ++ "]")) ∧
    (∀ v, oc = CallOutcome.responded (PyVal.nonStr v) → ¬key = "" →
      analyze_image_with_api key data name oc = PyVal.nonStr v) ∧
    (∀ v pre post,
      pyJoin (pre ++ PyVal.nonStr v :: post) = Except.error "TypeError") := by
  refine ⟨?_, ?_, ?_, ?_⟩
  · intro s hoc hk
    subst hoc
    simp [analyze_image_with_api, hk, apiTryBody]
  · intro hfail
    by_cases hk : key = ""
    · refine ⟨"API токен не найден", ?_⟩
      unfold analyze_image_with_api
      rw [if_pos hk]
      refine congrArg PyVal.str ?_
      simp only [stringAppend_assoc]
      exact congrArg (fun t => "[Изображение: " ++ t)
        (congrArg (fun t => name ++ t) (by decide))
    · rcases hfail with hfail | hfail | ⟨m, hfail⟩
      · exact absurd hfail hk
      · subst hfail
        refine ⟨"Не удалось получить описание", ?_⟩
        unfold analyze_image_with_api
        rw [if_neg hk]
        simp only [apiTryBody]
        refine congrArg PyVal.str ?_
        simp only [stringAppend_assoc]
        exact congrArg (fun t => "[Изображение: " ++ t)
          (congrArg (fun t => name ++ t) (by decide))
      · subst hfail
        refine ⟨"Ошибка анализа: " ++ m, ?_⟩
        have hmerge : ∀ X : String,
            (" - Ошибка анализа: " : String) ++ X =
              " - " ++ ("Ошибка анализа: " ++ X) := by
          intro X
          rw [← stringAppend_assoc]
          rw [show ((" - " : String) ++ "Ошибка анализа: ") =
            " - Ошибка анализа: " from by decide]
        unfold analyze_image_with_api
        rw [if_neg hk]
        simp only [apiTryBody]
        refine congrArg PyVal.str ?_
        simp only [stringAppend_assoc]
        exact congrArg (fun t => "[Изображение: " ++ t)
          (congrArg (fun t => name ++ t) (hmerge (m ++ "]")))
  · intro v hoc hk
    subst hoc
    simp [analyze_image_with_api, hk, apiTryBody]
  · intro v pre post
    have hall : (pre ++ PyVal.nonStr v :: post).all isStr = false := by
      simp [List.all_append, List.all_cons, isStr]
    simp [pyJoin, hall]

/-- Witness for the amended C7: a raised network exception with no
credential yields the placeholder embedding the image name. -/
theorem analyze_image_failure_placeholder_witness :
    ∃ reason, analyze_image_with_api "" [7] "A.png"
        (CallOutcome.raised "timeout") =
      PyVal.str ("[Изображение: " ++ "A.png" ++ " - " ++ reason ++ "]") :=
  (analyze_image_failure_placeholder "" [7] "A.png"
      (CallOutcome.raised "timeout")).2.1 (Or.inl rfl)

/-- C8: whenever the primary (python-docx) strategy succeeds, the
fallback (direct XML) strategy produces the same ordered element
sequence and the same media store. -/
theorem strategies_equivalent (f : DocxFile)
    (r : List Element × MediaStore) (h : primaryExtract f = some r) :
    fallbackExtract f = r := by
  by_cases hok : f.docOpenOk
  · cases hr : f.relsPart with
    | none => simp [primaryExtract, hok, hr] at h
    | some rels =>
      simp only [primaryExtract, hok, hr, if_true, Option.some.injEq] at h
      simp only [fallbackExtract, hr, Option.getD_some,
        fbExtractElements_eq, fbBuildRelTable_eq]
      exact h
  · simp [primaryExtract, hok] at h

/-- Witness for C8: on the scenario document the fallback strategy
reproduces the primary strategy's result. -/
theorem strategies_equivalent_witness :
    fallbackExtract exDoc3 =
      ([Element.text "Title", Element.image "word/media/A.png",
          Element.text "Body text"],
        [("word/media/A.png", [137, 80])]) :=
  strategies_equivalent exDoc3
    ([Element.text "Title", Element.image "word/media/A.png",
        Element.text "Body text"],
      [("word/media/A.png", [137, 80])]) (by decide)

/-- C9: conversion is deterministic — two runs on equal input documents
with pointwise-equal (deterministic) description providers produce
byte-identical output. -/
theorem conversion_deterministic (f g : DocxFile)
    (d1 d2 : List Nat → String → String) (hfg : f = g)
    (hd : ∀ b n, d1 b n = d2 b n) :
    convert_docx_to_txt f d1 = convert_docx_to_txt g d2 := by
  subst hfg
  simp only [convert_docx_to_txt]
  rw [renderLines_congr _ d1 d2 hd]

/-- Witness for C9: two runs on the scenario document with two
pointwise-equal stubs agree. -/
theorem conversion_deterministic_witness :
    convert_docx_to_txt exDoc3 stubDescribe =
      convert_docx_to_txt exDoc3 stubDescribe2 :=
  conversion_deterministic exDoc3 exDoc3 stubDescribe stubDescribe2 rfl
    (fun _ _ => rfl)

/-- C10: every `('image', path)` element emitted by
`parse_docx_structure` has its path present in the returned media store
(the element is appended only after a membership check), so the
renderer's "not found" branch never fires on extractor-produced
sequences. -/
theorem extracted_image_paths_in_media_store (f : DocxFile) :
    (∀ path, Element.image path ∈ (parse_docx_structure f).1 →
        (dictLookup path (parse_docx_structure f).2).isSome = true) ∧
      notFoundCount (parse_docx_structure f).2 (parse_docx_structure f).1 = 0 := by
  rw [parse_docx_structure_eq]
  exact extractElements_media_invariant _ _ _

/-- Witness for C10 at the scenario document's image element. -/
theorem extracted_image_paths_in_media_store_witness :
    (dictLookup "word/media/A.png" (parse_docx_structure exDoc3).2).isSome = true :=
  (extracted_image_paths_in_media_store exDoc3).1 "word/media/A.png" (by decide)

end DocxConvert

